import Mathlib

/-!
Verification of the gifme media storage and processing pipeline.

The TypeScript sources are embedded shallowly:
* `app/utils/media.server.ts` — `storeURL`, `storeBuffer`, `reparse`,
  `deleteURL`, `rename`, `makeThumbnailFilename`, `getCommonLabelsTerms`.
* `src/api.ts` — the `POST /upload-url` and `POST /assets/:id/parse`
  handlers (`uploadUrlHandler`, `parseHandler`).
* `s3-storage.server.ts` is not part of the sources; only its unit tests
  are.  Its URL/key translation is modelled from the spec in the
  `S3Storage` namespace below.

External collaborators (the S3 backend, Jimp, the fetch stream, the
database) are an explicit environment `Env` of oracle functions; each
pipeline operation returns its result together with the list of storage
calls it issued (`Event`), so that claims of the form "the underlying
upload is never called" are statable.  Fallible TypeScript code (await /
throw) is embedded with `Except`.
-/

namespace Gifme

/-- Error taxonomy of the spec, §7: `conflict` is the "File already
exists" error thrown by `storeURL`/`storeBuffer` and the
`createHttpError.Conflict` of the handlers; `payloadTooLarge` the error
thrown from the download progress callback; `unprocessable` an image
decode/analyze failure; `backend` an object-store transport failure. -/
inductive Err where
  | conflict
  | payloadTooLarge
  | unprocessable
  | backend (msg : String)
  deriving DecidableEq

/-- One storage call issued by a pipeline operation.  An event is
recorded at the moment the call is issued, whether or not it succeeds. -/
inductive Event where
  | download (url : String)
  | existsCheck (filename : String)
  | upload (filename : String)
  | rename (oldName newName : String)
  | delete (filename : String)
  deriving DecidableEq

/-- Whether an event is a call to the underlying upload. -/
def Event.isUpload : Event → Bool
  | .upload _ => true
  | _ => false

/-- Result of `getImageData` in `media.server.ts`: dimensions, dominant
color (`null` when color extraction fails, hence `Option`) and the
re-encoded thumbnail bytes. -/
structure ImageData where
  color : Option String
  width : Nat
  height : Nat
  thumbnail : List Nat
  deriving DecidableEq

/-- Result of the `image-service` `getImageData` used by the
`POST /assets/:id/parse` handler of `src/api.ts`: it additionally
reports `size` and its thumbnail is optional. -/
structure ApiImageData where
  width : Nat
  height : Nat
  size : Nat
  color : Option String
  thumbnail : Option (List Nat)
  deriving DecidableEq

/-- The environment of external collaborators, one oracle per call the
embedded code makes.  Bytes are `List Nat`; a remote source is the list
of chunks its stream yields.  `uploadFn` returns the public url and the
content hash of the uploaded bytes; `renameFn` returns the new url. -/
structure Env where
  existsFn : String → Bool
  remote : String → Except Err (List (List Nat))
  uploadFn : List Nat → String → Except Err (String × String)
  getFilenameFromURL : String → Option String
  getHash : List Nat → String
  renameFn : String → String → Except Err String
  deleteFn : String → Except Err Unit
  imageData : String → Except Err ImageData
  imageDataApi : String → Except Err ApiImageData

/-- `bytes("10MB")` = 10 * 1024 * 1024. -/
def MAX_FILE_SIZE : Nat := 10485760

/-- Streaming download loop: after each chunk is appended the progress
callback of `storeURL` / the `/upload-url` handler observes the
cumulative length and throws `payloadTooLarge` as soon as it exceeds
`maxSize`, aborting the transfer. -/
def boundedDownloadAux (maxSize : Nat) : List (List Nat) → List Nat → Except Err (List Nat)
  | [], acc => .ok acc
  | c :: rest, acc =>
    if maxSize < (acc ++ c).length then .error .payloadTooLarge
    else boundedDownloadAux maxSize rest (acc ++ c)

/-- `storage().download(url, { progress })` with the size-capping
progress callback used by `storeURL` and the `/upload-url` handler. -/
def boundedDownload (chunks : List (List Nat)) (maxSize : Nat) : Except Err (List Nat) :=
  boundedDownloadAux maxSize chunks []

/-- Download with the size-capping progress callback, starting from the
remote oracle. -/
def downloadBounded (env : Env) (url : String) (maxSize : Nat) : Except Err (List Nat) :=
  match env.remote url with
  | .error e => .error e
  | .ok chunks => boundedDownload chunks maxSize

/-- `storage().download(url)` without a progress callback (used by
`reparse`): the whole stream is buffered, no size check fires. -/
def downloadAll (env : Env) (url : String) : Except Err (List Nat) :=
  match env.remote url with
  | .error e => .error e
  | .ok chunks => .ok chunks.flatten

/-- `UploadOutput` of `media.server.ts`. -/
structure UploadOutput where
  url : String
  size : Nat
  hash : String
  deriving DecidableEq

/-- `storeURL` of `media.server.ts`: download (with the size cap), then
the existence check, then the upload.  The "File already exists" error
is the spec's Conflict condition. -/
def storeURL (env : Env) (originalURL filename : String) :
    Except Err UploadOutput × List Event :=
  match downloadBounded env originalURL MAX_FILE_SIZE with
  | .error e => (.error e, [.download originalURL])
  | .ok buffer =>
    if env.existsFn filename then
      (.error .conflict, [.download originalURL, .existsCheck filename])
    else
      match env.uploadFn buffer filename with
      | .error e => (.error e, [.download originalURL, .existsCheck filename, .upload filename])
      | .ok (url, hash) =>
        (.ok { url := url, size := buffer.length, hash := hash },
         [.download originalURL, .existsCheck filename, .upload filename])

/-- `storeBuffer` of `media.server.ts`: existence check then upload. -/
def storeBuffer (env : Env) (buffer : List Nat) (filename : String) :
    Except Err UploadOutput × List Event :=
  if env.existsFn filename then (.error .conflict, [.existsCheck filename])
  else
    match env.uploadFn buffer filename with
    | .error e => (.error e, [.existsCheck filename, .upload filename])
    | .ok (url, hash) =>
      (.ok { url := url, size := buffer.length, hash := hash },
       [.existsCheck filename, .upload filename])

/-- The `POST /upload-url` handler of `src/api.ts`: existence check
first, then the capped download, then the upload (the created asset's
url is returned). -/
def uploadUrlHandler (env : Env) (bodyUrl filename : String) :
    Except Err String × List Event :=
  if env.existsFn filename then (.error .conflict, [.existsCheck filename])
  else
    match downloadBounded env bodyUrl MAX_FILE_SIZE with
    | .error e => (.error e, [.existsCheck filename, .download bodyUrl])
    | .ok buffer =>
      match env.uploadFn buffer filename with
      | .error e => (.error e, [.existsCheck filename, .download bodyUrl, .upload filename])
      | .ok (url, _) =>
        (.ok url, [.existsCheck filename, .download bodyUrl, .upload filename])

/-- The fields of the Prisma `Media` record read by the pipeline. -/
structure Media where
  url : String
  thumbnailUrl : Option String
  fileHash : Option String
  labels : Option String
  deriving DecidableEq

/-- JavaScript `String.prototype.split` with a one-character separator,
on the character list of the string.  `splitChar sep l` is never empty
and `"".split(sep)` is `[""]`, as in JavaScript. -/
def splitChar (sep : Char) : List Char → List (List Char)
  | [] => [[]]
  | c :: rest =>
    if c = sep then [] :: splitChar sep rest
    else
      match splitChar sep rest with
      | [] => [[c]]
      | g :: gs => (c :: g) :: gs

/-- `makeThumbnailFilename` of `media.server.ts`:
`` `${filename.split(".")[0]}-thumbnail.jpg` ``. -/
def makeThumbnailFilename (filename : String) : String :=
  String.mk ((splitChar '.' filename.data).headD []) ++ "-thumbnail.jpg"

/-- The update object a successful `reparse` returns (the TypeScript
literal `{ width, height, color, thumbnailUrl, size, fileHash }`). -/
structure ReparseUpdate where
  width : Nat
  height : Nat
  color : Option String
  thumbnailUrl : String
  size : Nat
  fileHash : String
  deriving DecidableEq

/-- `reparse` either returns its argument unchanged (unresolvable url)
or the metadata update object. -/
inductive ReparseResult where
  | unchanged (media : Media)
  | updated (u : ReparseUpdate)
  deriving DecidableEq

/-- `reparse` of `media.server.ts`.  Note there is no try/catch in this
function: a failing download, image analysis or thumbnail upload
propagates to the caller.  The `fileHash` branch mirrors the JavaScript
truthiness test `if (!fileHash)`: a `null` or empty-string hash is
recomputed from the downloaded bytes. -/
def reparse (env : Env) (media : Media) : Except Err ReparseResult × List Event :=
  match env.getFilenameFromURL media.url with
  | none => (.ok (.unchanged media), [])
  | some filename =>
    match downloadAll env media.url with
    | .error e => (.error e, [.download media.url])
    | .ok buffer =>
      match env.imageData media.url with
      | .error e => (.error e, [.download media.url])
      | .ok d =>
        let tn := makeThumbnailFilename filename
        match env.uploadFn d.thumbnail tn with
        | .error e => (.error e, [.download media.url, .upload tn])
        | .ok (thumbnailUrl, _) =>
          let fileHash :=
            match media.fileHash with
            | some h => if h = "" then env.getHash buffer else h
            | none => env.getHash buffer
          (.ok (.updated
              { width := d.width, height := d.height, color := d.color,
                thumbnailUrl := thumbnailUrl, size := buffer.length,
                fileHash := fileHash }),
           [.download media.url, .upload tn])

/-- `deleteURL` of `media.server.ts`.  The JavaScript guard `if (!url)`
returns for both `null` and the empty string. -/
def deleteURL (env : Env) (url : Option String) : Except Err Unit × List Event :=
  match url with
  | none => (.ok (), [])
  | some u =>
    if u = "" then (.ok (), [])
    else
      match env.getFilenameFromURL u with
      | none => (.ok (), [])
      | some f =>
        match env.deleteFn f with
        | .error e => (.error e, [.delete f])
        | .ok _ => (.ok (), [.delete f])

/-- The `Pick<Media, "url" | "thumbnailUrl">` argument of `rename`. -/
structure RenamePick where
  url : String
  thumbnailUrl : Option String
  deriving DecidableEq

/-- The object `rename` returns on success. -/
structure RenameOutput where
  url : String
  thumbnailUrl : Option String
  deriving DecidableEq

/-- `rename` of `media.server.ts`.  An unresolvable primary url is a
no-op returning `null`.  The thumbnail filename is resolved from
`media.thumbnailUrl || ""`; when resolvable, its rename request is
issued alongside the primary one and both are awaited (`Promise.all`);
a rejection of either rejects the whole call, the primary one first.
The returned `thumbnailUrl` mirrors `thumbnailResp?.url || null`. -/
def rename (env : Env) (media : RenamePick) (newFilename : String) :
    Except Err (Option RenameOutput) × List Event :=
  match env.getFilenameFromURL media.url with
  | none => (.ok none, [])
  | some filename =>
    match env.getFilenameFromURL (media.thumbnailUrl.getD "") with
    | none =>
      let ev := [Event.rename filename newFilename]
      match env.renameFn filename newFilename with
      | .error e => (.error e, ev)
      | .ok u => (.ok (some { url := u, thumbnailUrl := none }), ev)
    | some tf =>
      let tnew := makeThumbnailFilename newFilename
      let ev := [Event.rename filename newFilename, Event.rename tf tnew]
      match env.renameFn filename newFilename, env.renameFn tf tnew with
      | .ok u, .ok tu =>
        (.ok (some { url := u, thumbnailUrl := if tu = "" then none else some tu }), ev)
      | .error e, _ => (.error e, ev)
      | .ok _, .error e => (.error e, ev)

/-- The fields of the `Asset` record read by the `src/api.ts` parse
handler. -/
structure Asset where
  url : String
  thumbnailUrl : Option String
  width : Option Nat
  height : Option Nat
  size : Option Nat
  color : Option String
  deriving DecidableEq

/-- The `updateData` object the parse handler passes to
`db.asset.update`; `thumbnailUrl` is set only when the thumbnail upload
succeeded. -/
structure UpdateData where
  width : Nat
  height : Nat
  size : Nat
  color : Option String
  thumbnailUrl : Option String
  deriving DecidableEq

/-- `db.asset.update`: fields present in `updateData` overwrite the
record, absent ones are untouched. -/
def applyUpdate (a : Asset) (u : UpdateData) : Asset :=
  { a with
    width := some u.width, height := some u.height, size := some u.size,
    color := u.color,
    thumbnailUrl :=
      match u.thumbnailUrl with
      | none => a.thumbnailUrl
      | some t => some t }

/-- Last `/`-separated segment of a path (Node `path.basename` without
an extension argument, for the urls that occur here). -/
def lastSeg (s : String) : String :=
  String.mk ((splitChar '/' s.data).getLastD [])

/-- Node `path.extname`: the suffix of the last segment from its last
`.`, empty when there is no dot or the only dot is the leading one. -/
def extname (s : String) : String :=
  let b := (lastSeg s).data
  let afterDot := b.reverse.takeWhile (fun c => c ≠ '.')
  if afterDot.length = b.length then ""
  else if afterDot.length + 1 = b.length ∧ b.headD ' ' = '.' then ""
  else String.mk ('.' :: afterDot.reverse)

/-- Node `path.basename(p, ext)`: the last segment with a trailing
`ext` stripped when it is a proper suffix. -/
def basenameWithoutExt (p ext : String) : String :=
  let b := (lastSeg p).data
  let e := ext.data
  if e ≠ [] ∧ e.isSuffixOf b ∧ e.length < b.length then
    String.mk (b.take (b.length - e.length))
  else String.mk b

/-- The thumbnail object name the parse handler computes:
`` `${path.basename(url, path.extname(url))}-thumbnail.jpg` ``. -/
def thumbName (url : String) : String :=
  basenameWithoutExt url (extname url) ++ "-thumbnail.jpg"

/-- The `POST /assets/:id/parse` handler of `src/api.ts` from the point
where the asset has been fetched.  The outer try/catch converts an
image-analysis failure into returning the original asset; the inner
try/catch around the thumbnail upload logs and skips its failure, the
metadata update still applies. -/
def parseHandler (env : Env) (asset : Asset) : Asset × List Event :=
  match env.imageDataApi asset.url with
  | .error _ => (asset, [])
  | .ok d =>
    let upd : UpdateData :=
      { width := d.width, height := d.height, size := d.size,
        color := d.color, thumbnailUrl := none }
    match d.thumbnail with
    | none => (applyUpdate asset upd, [])
    | some t =>
      let tn := thumbName asset.url
      match env.uploadFn t tn with
      | .error _ => (applyUpdate asset upd, [.upload tn])
      | .ok (tu, _) =>
        (applyUpdate asset { upd with thumbnailUrl := some tu }, [.upload tn])

/-- Whether `key` holds an object after the given storage calls ran
against a store whose initial existence predicate is `exists0`: uploads
and rename targets create objects at their key. -/
def existsAfter (events : List Event) (exists0 : String → Bool) (key : String) : Bool :=
  exists0 key ||
    events.any (fun e =>
      match e with
      | .upload f => f == key
      | .rename _ n => n == key
      | _ => false)

/-- JavaScript `String.prototype.trim` on the character list. -/
def jsTrim (l : List Char) : List Char :=
  ((l.dropWhile Char.isWhitespace).reverse.dropWhile Char.isWhitespace).reverse

/-- JavaScript `String.prototype.toLowerCase` (ASCII range, which is
all the label terms exercise). -/
def jsLower (l : List Char) : List Char :=
  l.map Char.toLower

/-- Lexicographic order on character lists by code point; this embeds
the `a[0].localeCompare(b[0])` comparator of `getCommonLabelsTerms`
(for the lower-cased ASCII terms it is applied to, locale collation and
code-point order agree). -/
def lexLe : List Char → List Char → Bool
  | [], _ => true
  | _ :: _, [] => false
  | a :: as, b :: bs =>
    if a.toNat < b.toNat then true
    else if b.toNat < a.toNat then false
    else lexLe as bs

/-- The sort relation of `getCommonLabelsTerms`: compare entries by
their term. -/
def termLe (a b : String × Nat) : Prop :=
  lexLe a.1.data b.1.data = true

instance : DecidableRel termLe :=
  fun a b => inferInstanceAs (Decidable (lexLe a.1.data b.1.data = true))

/-- One step of the tally: `terms[term] = (terms[term] || 0) + 1` on an
insertion-ordered record (JavaScript objects enumerate string keys in
insertion order). -/
def bump (acc : List (String × Nat)) (t : String) : List (String × Nat) :=
  if acc.any (fun p => p.1 == t) then
    acc.map (fun p => if p.1 == t then (p.1, p.2 + 1) else p)
  else acc ++ [(t, 1)]

/-- The `Pick<Media, "labels">` rows `getCommonLabelsTerms` receives. -/
structure LabelsPick where
  labels : Option String
  deriving DecidableEq

/-- The options object of `getCommonLabelsTerms` with its defaults.
The `randomize` branch replaces the comparator by `Math.random() - 0.5`
and is outside this deterministic embedding; the embedded comparator is
the default (`randomize = false`) one. -/
structure TermsOptions where
  limit : Nat := 5
  filterP : String × Nat → Bool := fun _ => true

/-- `getCommonLabelsTerms` of `media.server.ts`: split each non-null
`labels` string on commas, trim and lower-case each part, tally counts
in insertion order, keep entries with count above one, a non-empty term
and a passing predicate, sort by term, truncate to `limit`. -/
def getCommonLabelsTerms (media : List LabelsPick) (opts : TermsOptions) :
    List (String × Nat) :=
  let terms := media.foldl
    (fun acc m =>
      match m.labels with
      | none => acc
      | some s =>
        (splitChar ',' s.data).foldl
          (fun acc c => bump acc (String.mk (jsLower (jsTrim c)))) acc)
    []
  ((terms.filter
      (fun p => decide (1 < p.2) && decide (p.1 ≠ "") && opts.filterP p)).insertionSort
    termLe).take opts.limit

namespace S3Storage

/-- Modelled from the spec: the configuration surface of the missing
`s3-storage.server.ts` that URL translation depends on — the public
base URL and the base path prefix (§6, §4.1). -/
structure StorageConfig where
  storageBaseURL : String
  basePath : String

/-- Modelled from the spec: the base-URL/base-path prefix under which
all managed public URLs live; when the base path is empty the prefix is
the base URL alone (§4.1 `getFilenameFromURL`, §3 StoredObject). -/
def urlPre (cfg : StorageConfig) : String :=
  if cfg.basePath = "" then cfg.storageBaseURL ++ "/"
  else cfg.storageBaseURL ++ "/" ++ cfg.basePath ++ "/"

/-- Modelled from the spec: key to public URL construction, "derived
deterministically from base-URL + base-path + key" (§3); matches the
urls asserted by the repository's `S3Storage` unit tests. -/
def buildURL (cfg : StorageConfig) (key : String) : String :=
  urlPre cfg ++ key

/-- Modelled from the spec: `getFilenameFromURL`, "pure string parsing
against the configured base-URL + base-path prefix; returns null (not
an error) when the URL does not match the configured prefix, including
the case where base path is empty" (§4.1). -/
def getFilenameFromURL (cfg : StorageConfig) (url : String) : Option String :=
  let pre := (urlPre cfg).data
  if pre.isPrefixOf url.data then some (String.mk (url.data.drop pre.length))
  else none

/-- The configuration the repository's `S3Storage` unit tests
construct. -/
def testCfg : StorageConfig :=
  { storageBaseURL := "https://test-bucket.s3.amazonaws.com",
    basePath := "test-base-path" }

end S3Storage

/-! ## Concrete environments used by counterexamples and witnesses -/

/-- A benign base environment: the store is empty, every oracle
succeeds. -/
def env0 : Env where
  existsFn := fun _ => false
  remote := fun _ => .ok [[1, 2]]
  uploadFn := fun _ _ => .ok ("https://s/u.jpg", "h0")
  getFilenameFromURL := fun _ => none
  getHash := fun _ => "freshhash"
  renameFn := fun _ _ => .ok "https://s/new.jpg"
  deleteFn := fun _ => .ok ()
  imageData := fun _ => .ok { color := some "#aabbcc", width := 10, height := 20, thumbnail := [9] }
  imageDataApi := fun _ =>
    .ok { width := 10, height := 20, size := 3, color := some "#aabbcc", thumbnail := some [9] }

/-- Environment in which the target filename already exists. -/
def envExists : Env := { env0 with existsFn := fun _ => true }

/-- Environment whose remote source streams one chunk just over the
10 MB cap. -/
def envBig : Env :=
  { env0 with remote := fun _ => .ok [List.replicate (MAX_FILE_SIZE + 1) 0] }

/-- Environment with a resolvable url whose image analysis fails. -/
def envBadImage : Env :=
  { env0 with
    getFilenameFromURL := fun _ => some "f.jpg",
    imageData := fun _ => .error .unprocessable,
    imageDataApi := fun _ => .error .unprocessable }

/-- Environment with a resolvable url whose thumbnail upload fails. -/
def envBadUpload : Env :=
  { env0 with
    getFilenameFromURL := fun _ => some "f.jpg",
    uploadFn := fun _ _ => .error (.backend "boom") }

/-- Environment with a resolvable url and all steps succeeding. -/
def envOk : Env := { env0 with getFilenameFromURL := fun _ => some "f.jpg" }

/-- Environment resolving every url to itself as key (for rename). -/
def envResolve : Env := { env0 with getFilenameFromURL := fun u => some u }

/-- A concrete media record with an empty-string (non-null) file
hash. -/
def mediaEmptyHash : Media :=
  { url := "https://s/f.jpg", thumbnailUrl := none, fileHash := some "", labels := none }

/-- A concrete media record with no file hash. -/
def mediaNoHash : Media :=
  { url := "https://s/f.jpg", thumbnailUrl := none, fileHash := none, labels := none }

/-- A concrete asset record for the parse handler. -/
def asset0 : Asset :=
  { url := "https://s/f.jpg", thumbnailUrl := some "https://s/old-thumbnail.jpg",
    width := none, height := none, size := none, color := none }

/-! ## Helper lemmas -/

/-- The download loop aborts with `payloadTooLarge` whenever the total
byte count of the stream exceeds the cap. -/
theorem boundedDownloadAux_too_large (maxSize : Nat) :
    ∀ (chunks : List (List Nat)) (acc : List Nat),
      acc.length ≤ maxSize → maxSize < acc.length + chunks.flatten.length →
      boundedDownloadAux maxSize chunks acc = .error .payloadTooLarge := by
  intro chunks
  induction chunks with
  | nil =>
    intro acc h1 h2
    simp only [List.flatten_nil, List.length_nil, Nat.add_zero] at h2
    exact absurd h1 (by omega)
  | cons c rest ih =>
    intro acc h1 h2
    simp only [boundedDownloadAux]
    simp only [List.flatten_cons, List.length_append] at h2
    by_cases h : maxSize < (acc ++ c).length
    · rw [if_pos h]
    · rw [if_neg h]
      rw [List.length_append] at h
      exact ih (acc ++ c) (by rw [List.length_append]; omega)
        (by rw [List.length_append]; omega)

/-- `boundedDownload` fails with `payloadTooLarge` on an oversized
source. -/
theorem boundedDownload_too_large (chunks : List (List Nat))
    (h : MAX_FILE_SIZE < chunks.flatten.length) :
    boundedDownload chunks MAX_FILE_SIZE = .error .payloadTooLarge := by
  apply boundedDownloadAux_too_large
  · simp
  · simpa using h

/-- `splitChar` always returns at least one group. -/
theorem splitChar_ne_nil (sep : Char) (l : List Char) : splitChar sep l ≠ [] := by
  cases l with
  | nil => simp [splitChar]
  | cons c rest =>
    simp only [splitChar]
    split
    · simp
    · split <;> simp

/-- The first group of `splitChar sep l` is the longest sep-free
front of `l`. -/
theorem splitChar_headD (sep : Char) (l : List Char) :
    (splitChar sep l).headD [] = l.takeWhile (fun c => c ≠ sep) := by
  induction l with
  | nil => rfl
  | cons c rest ih =>
    simp only [splitChar]
    by_cases h : c = sep
    · simp [h]
    · rw [if_neg h]
      have hne := splitChar_ne_nil sep rest
      cases hrest : splitChar sep rest with
      | nil => exact absurd hrest hne
      | cons g gs =>
        rw [hrest] at ih
        simp only [List.headD_cons] at ih
        simp [List.takeWhile_cons, h, ih]

/-- `lexLe` is total. -/
theorem lexLe_total : ∀ a b : List Char, lexLe a b = true ∨ lexLe b a = true := by
  intro a
  induction a with
  | nil => intro b; left; rfl
  | cons x as ih =>
    intro b
    cases b with
    | nil => right; rfl
    | cons y bs =>
      by_cases h1 : x.toNat < y.toNat
      · left; simp [lexLe, h1]
      · by_cases h2 : y.toNat < x.toNat
        · right; simp [lexLe, h2]
        · rcases ih bs with h | h
          · left; simp [lexLe, h1, h2, h]
          · right; simp [lexLe, h1, h2, h]

/-- `lexLe` is transitive. -/
theorem lexLe_trans : ∀ a b c : List Char,
    lexLe a b = true → lexLe b c = true → lexLe a c = true := by
  intro a
  induction a with
  | nil => intro b c _ _; rfl
  | cons x as ih =>
    intro b c h1 h2
    cases b with
    | nil => simp [lexLe] at h1
    | cons y bs =>
      cases c with
      | nil => simp [lexLe] at h2
      | cons z cs =>
        by_cases hxy : x.toNat < y.toNat
        · by_cases hyz : y.toNat < z.toNat
          · simp [lexLe, show x.toNat < z.toNat by omega]
          · by_cases hzy : z.toNat < y.toNat
            · simp [lexLe, hyz, hzy] at h2
            · simp [lexLe, show x.toNat < z.toNat by omega]
        · by_cases hyx : y.toNat < x.toNat
          · simp [lexLe, hxy, hyx] at h1
          · simp only [lexLe, if_neg hxy, if_neg hyx] at h1
            by_cases hyz : y.toNat < z.toNat
            · simp [lexLe, show x.toNat < z.toNat by omega]
            · by_cases hzy : z.toNat < y.toNat
              · simp [lexLe, hyz, hzy] at h2
              · simp only [lexLe, if_neg hyz, if_neg hzy] at h2
                have hxz : ¬x.toNat < z.toNat := by omega
                have hzx : ¬z.toNat < x.toNat := by omega
                simp only [lexLe, if_neg hxz, if_neg hzx]
                exact ih bs cs h1 h2

/-! ## Claims -/

/-- C1, counterexample: with the target filename already existing in
the store, `storeURL` still performs the download first — the trace
contains a download event before the existence check — refuting
"this existence check is performed before any transfer begins". -/
theorem storeURL_downloads_before_existence_check :
    envExists.existsFn "f" = true ∧
    Event.download "https://r" ∈ (storeURL envExists "https://r" "f").2 ∧
    (storeURL envExists "https://r" "f").2 = [.download "https://r", .existsCheck "f"] :=
  ⟨rfl, by decide, rfl⟩

/-- C1 (amended): when the target filename already exists, the
upload-from-URL operation fails with Conflict and the underlying upload
is never called; the `/upload-url` handler (and `storeBuffer`) perform
the existence check before any transfer, while `storeURL` downloads
first and checks before the upload only. -/
theorem uploadFromURL_conflict_behavior (env : Env) (u f : String) (buffer : List Nat)
    (hex : env.existsFn f = true) :
    (∀ e ∈ (storeURL env u f).2, e.isUpload = false) ∧
    (downloadBounded env u MAX_FILE_SIZE = .ok buffer →
      storeURL env u f = (.error .conflict, [.download u, .existsCheck f])) ∧
    uploadUrlHandler env u f = (.error .conflict, [.existsCheck f]) ∧
    storeBuffer env buffer f = (.error .conflict, [.existsCheck f]) := by
  refine ⟨?_, ?_, ?_, ?_⟩
  · intro e he
    cases hdl : downloadBounded env u MAX_FILE_SIZE with
    | error err =>
      simp only [storeURL, hdl, List.mem_singleton] at he
      simp [he, Event.isUpload]
    | ok b =>
      simp only [storeURL, hdl, hex, if_true, List.mem_cons, List.mem_singleton,
        List.not_mem_nil] at he
      rcases he with h | h | h
      · simp [h, Event.isUpload]
      · simp [h, Event.isUpload]
      · exact absurd h (by simp)
  · intro hdl
    simp [storeURL, hdl, hex]
  · simp [uploadUrlHandler, hex]
  · simp [storeBuffer, hex]

/-- C1 witness: concrete instances of the amended claim. -/
theorem uploadFromURL_conflict_behavior_witness :
    uploadUrlHandler envExists "https://r" "f" = (.error .conflict, [.existsCheck "f"]) ∧
    storeBuffer envExists [1] "f" = (.error .conflict, [.existsCheck "f"]) :=
  ⟨(uploadFromURL_conflict_behavior envExists "https://r" "f" [1] rfl).2.2.1,
   (uploadFromURL_conflict_behavior envExists "https://r" "f" [1] rfl).2.2.2⟩

/-- C2, counterexample: `reparse` on a record with a resolvable url
whose image analysis fails returns the error — it does not return the
original record. -/
theorem reparse_propagates_analyzer_error :
    (reparse envBadImage mediaNoHash).1 = .error .unprocessable ∧
    ∀ r, (reparse envBadImage mediaNoHash).1 ≠ .ok r :=
  ⟨rfl, fun _ h => nomatch h⟩

/-- C2 (amended): when the image bytes cannot be analyzed, the
`/assets/:id/parse` handler of `src/api.ts` swallows the failure and
returns the original record unmodified, whereas the `reparse` function
of `media.server.ts` propagates the analyzer error to its caller. -/
theorem reparse_analyzer_failure_handling (env : Env) (a : Asset) (m : Media) (f : String)
    (e1 e2 : Err) (buf : List Nat)
    (ha : env.imageDataApi a.url = .error e1)
    (hm1 : env.getFilenameFromURL m.url = some f)
    (hm2 : downloadAll env m.url = .ok buf)
    (hm3 : env.imageData m.url = .error e2) :
    parseHandler env a = (a, []) ∧
    reparse env m = (.error e2, [.download m.url]) := by
  constructor
  · simp [parseHandler, ha]
  · simp [reparse, hm1, hm2, hm3]

/-- C2 witness: the amended claim at a concrete environment. -/
theorem reparse_analyzer_failure_handling_witness :
    parseHandler envBadImage asset0 = (asset0, []) ∧
    reparse envBadImage mediaNoHash = (.error .unprocessable, [.download mediaNoHash.url]) :=
  reparse_analyzer_failure_handling envBadImage asset0 mediaNoHash "f.jpg"
    .unprocessable .unprocessable [1, 2] rfl rfl rfl rfl

/-- C3: a remote source whose cumulative streamed byte count exceeds
the 10 MB cap makes both upload-from-URL operations fail with
PayloadTooLarge during the download, no bytes are returned, no upload
is issued, and the target key still does not exist afterwards. -/
theorem oversized_source_payload_too_large (env : Env) (u f : String) (chunks : List (List Nat))
    (hr : env.remote u = .ok chunks)
    (hsz : MAX_FILE_SIZE < chunks.flatten.length)
    (hex : env.existsFn f = false) :
    storeURL env u f = (.error .payloadTooLarge, [.download u]) ∧
    uploadUrlHandler env u f = (.error .payloadTooLarge, [.existsCheck f, .download u]) ∧
    existsAfter (storeURL env u f).2 env.existsFn f = false ∧
    existsAfter (uploadUrlHandler env u f).2 env.existsFn f = false := by
  have hdl : downloadBounded env u MAX_FILE_SIZE = .error .payloadTooLarge := by
    simp [downloadBounded, hr, boundedDownload_too_large chunks hsz]
  refine ⟨?_, ?_, ?_, ?_⟩
  · simp [storeURL, hdl]
  · simp [uploadUrlHandler, hex, hdl]
  · simp [storeURL, hdl, existsAfter, hex]
  · simp [uploadUrlHandler, hex, hdl, existsAfter]

/-- C3 witness: a source streaming a single chunk one byte over the
cap. -/
theorem oversized_source_payload_too_large_witness :
    storeURL envBig "https://r" "f" = (.error .payloadTooLarge, [.download "https://r"]) ∧
    existsAfter (storeURL envBig "https://r" "f").2 envBig.existsFn "f" = false :=
  have h := oversized_source_payload_too_large envBig "https://r" "f"
    [List.replicate (MAX_FILE_SIZE + 1) 0] rfl (by simp) rfl
  ⟨h.1, h.2.2.1⟩

/-- C4, counterexample: inside `reparse` of `media.server.ts` a failing
thumbnail upload is not isolated — the whole operation fails instead of
the metadata update still applying. -/
theorem reparse_thumbnail_failure_fatal :
    (reparse envBadUpload mediaNoHash).1 = .error (.backend "boom") ∧
    ∀ r, (reparse envBadUpload mediaNoHash).1 ≠ .ok r :=
  ⟨rfl, fun _ h => nomatch h⟩

/-- C4 (amended): in the `/assets/:id/parse` handler a thumbnail upload
failure is isolated — the metadata update (width, height, color, size)
still applies and `thumbnailUrl` is left untouched — whereas in
`reparse` of `media.server.ts` the thumbnail upload failure makes the
whole operation fail. -/
theorem thumbnail_failure_isolated_in_handler (env : Env) (a : Asset) (d : ApiImageData)
    (t : List Nat) (e : Err) (m : Media) (f : String) (buf : List Nat) (dm : ImageData)
    (e2 : Err)
    (h1 : env.imageDataApi a.url = .ok d)
    (h2 : d.thumbnail = some t)
    (h3 : env.uploadFn t (thumbName a.url) = .error e)
    (hm1 : env.getFilenameFromURL m.url = some f)
    (hm2 : downloadAll env m.url = .ok buf)
    (hm3 : env.imageData m.url = .ok dm)
    (hm4 : env.uploadFn dm.thumbnail (makeThumbnailFilename f) = .error e2) :
    parseHandler env a =
      ({ a with width := some d.width, height := some d.height, size := some d.size,
                color := d.color },
       [.upload (thumbName a.url)]) ∧
    (parseHandler env a).1.thumbnailUrl = a.thumbnailUrl ∧
    reparse env m = (.error e2, [.download m.url, .upload (makeThumbnailFilename f)]) := by
  have hp : parseHandler env a =
      ({ a with width := some d.width, height := some d.height, size := some d.size,
                color := d.color },
       [.upload (thumbName a.url)]) := by
    simp [parseHandler, h1, h2, h3, applyUpdate]
  refine ⟨hp, ?_, ?_⟩
  · rw [hp]
  · simp [reparse, hm1, hm2, hm3, hm4]

/-- C4 witness: the amended claim at a concrete environment. -/
theorem thumbnail_failure_isolated_in_handler_witness :
    parseHandler envBadUpload asset0 =
      ({ asset0 with width := some 10, height := some 20, size := some 3,
                     color := some "#aabbcc" },
       [.upload (thumbName asset0.url)]) ∧
    reparse envBadUpload mediaNoHash =
      (.error (.backend "boom"),
       [.download mediaNoHash.url, .upload (makeThumbnailFilename "f.jpg")]) :=
  have h := thumbnail_failure_isolated_in_handler envBadUpload asset0 _ [9] (.backend "boom")
    mediaNoHash "f.jpg" [1, 2] _ (.backend "boom") rfl rfl rfl rfl rfl rfl rfl
  ⟨h.1, h.2.2⟩

/-- C5: key to public URL translation and back is the identity, a URL
outside the configured base-URL/base-path prefix maps to `none` (a
negative result, not an error) including when the base path is empty,
and the modelled translation reproduces the repository's `S3Storage`
unit tests. -/
theorem url_key_round_trip (cfg : S3Storage.StorageConfig) :
    (∀ key, S3Storage.getFilenameFromURL cfg (S3Storage.buildURL cfg key) = some key) ∧
    (∀ url, (S3Storage.urlPre cfg).data.isPrefixOf url.data = false →
      S3Storage.getFilenameFromURL cfg url = none) ∧
    S3Storage.getFilenameFromURL S3Storage.testCfg
      "https://test-bucket.s3.amazonaws.com/test-base-path/test.jpg" = some "test.jpg" ∧
    S3Storage.getFilenameFromURL S3Storage.testCfg
      "https://test-bucket.s3.amazonaws.com/test.jpg" = none ∧
    S3Storage.getFilenameFromURL { S3Storage.testCfg with basePath := "" }
      "https://test-bucket.s3.amazonaws.com/test.jpg" = some "test.jpg" := by
  refine ⟨?_, ?_, by decide, by decide, by decide⟩
  · intro key
    have hpre : (S3Storage.urlPre cfg).data.isPrefixOf (S3Storage.buildURL cfg key).data
        = true := by
      rw [S3Storage.buildURL, String.data_append, List.isPrefixOf_iff_prefix]
      exact List.prefix_append _ _
    simp only [S3Storage.getFilenameFromURL, hpre, if_true]
    rw [S3Storage.buildURL, String.data_append, List.drop_left]
  · intro url h
    simp [S3Storage.getFilenameFromURL, h]

/-- C5 witness: the round trip and the negative result at concrete
inputs. -/
theorem url_key_round_trip_witness :
    S3Storage.getFilenameFromURL S3Storage.testCfg
      (S3Storage.buildURL S3Storage.testCfg "test.jpg") = some "test.jpg" ∧
    S3Storage.getFilenameFromURL S3Storage.testCfg
      "https://other.example.com/test.jpg" = none :=
  ⟨(url_key_round_trip S3Storage.testCfg).1 "test.jpg",
   (url_key_round_trip S3Storage.testCfg).2.1 "https://other.example.com/test.jpg" (by decide)⟩

/-- C6: `getCommonLabelsTerms` on `["cat, dog", "dog, cat", "dog"]`
with default options yields `[("cat", 2), ("dog", 3)]`; in general the
result is truncated to `limit`, every retained entry has count above
one, a non-empty term and a passing predicate, and the result is sorted
by term. -/
theorem getCommonLabelsTerms_spec :
    getCommonLabelsTerms
        [{ labels := some "cat, dog" }, { labels := some "dog, cat" }, { labels := some "dog" }]
        {} = [("cat", 2), ("dog", 3)] ∧
    (∀ media opts, (getCommonLabelsTerms media opts).length ≤ opts.limit) ∧
    (∀ media opts p, p ∈ getCommonLabelsTerms media opts →
      1 < p.2 ∧ p.1 ≠ "" ∧ opts.filterP p = true) ∧
    (∀ media opts, List.Sorted termLe (getCommonLabelsTerms media opts)) := by
  refine ⟨by decide, ?_, ?_, ?_⟩
  · intro media opts
    simp only [getCommonLabelsTerms]
    exact List.length_take_le _ _
  · intro media opts p hp
    simp only [getCommonLabelsTerms] at hp
    have h1 := List.mem_of_mem_take hp
    have h2 := (List.perm_insertionSort termLe _).mem_iff.1 h1
    have h3 := (List.mem_filter.1 h2).2
    simp only [Bool.and_eq_true, decide_eq_true_eq] at h3
    exact ⟨h3.1.1, h3.1.2, h3.2⟩
  · intro media opts
    simp only [getCommonLabelsTerms]
    haveI : IsTotal (String × Nat) termLe := ⟨fun a b => lexLe_total a.1.data b.1.data⟩
    haveI : IsTrans (String × Nat) termLe :=
      ⟨fun a b c => lexLe_trans a.1.data b.1.data c.1.data⟩
    exact List.Pairwise.sublist (List.take_sublist _ _)
      (List.sorted_insertionSort termLe _)

/-- C6 witness: the retained-entry property at the concrete example. -/
theorem getCommonLabelsTerms_spec_witness :
    1 < ("cat", 2).2 ∧ ("cat", 2).1 ≠ "" ∧
    ({} : TermsOptions).filterP ("cat", 2) = true :=
  getCommonLabelsTerms_spec.2.2.1
    [{ labels := some "cat, dog" }, { labels := some "dog, cat" }, { labels := some "dog" }]
    {} ("cat", 2) (by decide)

/-- C7: a record url that does not resolve to a managed key is a benign
no-op: `reparse` returns the record unchanged, `rename` returns null,
and `deleteURL` of an unresolvable or absent url deletes nothing and
does not raise; no storage call is issued in any of these cases. -/
theorem unresolvable_url_is_noop (env : Env) (m : Media) (newName : String)
    (h : env.getFilenameFromURL m.url = none) :
    reparse env m = (.ok (.unchanged m), []) ∧
    rename env { url := m.url, thumbnailUrl := m.thumbnailUrl } newName = (.ok none, []) ∧
    (∀ u, env.getFilenameFromURL u = none → deleteURL env (some u) = (.ok (), [])) ∧
    deleteURL env none = (.ok (), []) := by
  refine ⟨by simp [reparse, h], by simp [rename, h], ?_, rfl⟩
  intro u hu
  by_cases he : u = ""
  · simp [deleteURL, he]
  · simp [deleteURL, he, hu]

/-- C7 witness: the no-ops at a concrete environment managing no
urls. -/
theorem unresolvable_url_is_noop_witness :
    reparse env0 mediaNoHash = (.ok (.unchanged mediaNoHash), []) ∧
    rename env0 { url := mediaNoHash.url, thumbnailUrl := mediaNoHash.thumbnailUrl } "n.jpg"
      = (.ok none, []) ∧
    deleteURL env0 (some "https://elsewhere/x.gif") = (.ok (), []) ∧
    deleteURL env0 none = (.ok (), []) :=
  have h := unresolvable_url_is_noop env0 mediaNoHash "n.jpg" rfl
  ⟨h.1, h.2.1, h.2.2.1 "https://elsewhere/x.gif" rfl, h.2.2.2⟩

/-- C8: on a record whose primary and thumbnail urls both resolve,
`rename` issues both rename requests — the thumbnail to the name
derived from the new filename — and returns the new url together with
the new thumbnail url. -/
theorem rename_renames_primary_and_thumbnail (env : Env) (m : RenamePick)
    (newName f tu tf nu ntu : String)
    (h1 : env.getFilenameFromURL m.url = some f)
    (h2 : m.thumbnailUrl = some tu)
    (h3 : env.getFilenameFromURL tu = some tf)
    (h4 : env.renameFn f newName = .ok nu)
    (h5 : env.renameFn tf (makeThumbnailFilename newName) = .ok ntu)
    (h6 : ntu ≠ "") :
    rename env m newName =
      (.ok (some { url := nu, thumbnailUrl := some ntu }),
       [.rename f newName, .rename tf (makeThumbnailFilename newName)]) := by
  simp [rename, h1, h2, h3, h4, h5, h6]

/-- C8 witness: both objects renamed at a concrete environment. -/
theorem rename_renames_primary_and_thumbnail_witness :
    rename envResolve { url := "a.jpg", thumbnailUrl := some "t.jpg" } "new.jpg" =
      (.ok (some { url := "https://s/new.jpg", thumbnailUrl := some "https://s/new.jpg" }),
       [.rename "a.jpg" "new.jpg", .rename "t.jpg" (makeThumbnailFilename "new.jpg")]) :=
  rename_renames_primary_and_thumbnail envResolve
    { url := "a.jpg", thumbnailUrl := some "t.jpg" } "new.jpg" "a.jpg" "t.jpg" "t.jpg"
    "https://s/new.jpg" "https://s/new.jpg" rfl rfl rfl rfl rfl (by decide)

/-- C9: the thumbnail filename is the primary filename with everything
from the first `.` onward replaced by the fixed `-thumbnail.jpg`
suffix; being a function of the filename alone it is deterministic, and
`foo.jpg` maps to `foo-thumbnail.jpg`. -/
theorem makeThumbnailFilename_spec :
    (∀ filename : String,
      makeThumbnailFilename filename =
        String.mk (filename.data.takeWhile (fun c => c ≠ '.')) ++ "-thumbnail.jpg") ∧
    makeThumbnailFilename "foo.jpg" = "foo-thumbnail.jpg" := by
  refine ⟨?_, by decide⟩
  intro filename
  rw [makeThumbnailFilename, splitChar_headD]

/-- C10, counterexample: a record whose `fileHash` is the non-null
empty string is successfully reparsed to a fresh digest of the
downloaded bytes, not to the unchanged `fileHash` value — the
JavaScript truthiness test `if (!fileHash)` treats the empty string
like null. -/
theorem reparse_recomputes_empty_fileHash :
    mediaEmptyHash.fileHash = some "" ∧
    (reparse envOk mediaEmptyHash).1 = .ok (.updated
      { width := 10, height := 20, color := some "#aabbcc",
        thumbnailUrl := "https://s/u.jpg", size := 2, fileHash := "freshhash" }) ∧
    ("freshhash" : String) ≠ "" :=
  ⟨rfl, rfl, by decide⟩

/-- C10 (amended): a successful `reparse` returns the record's own
`fileHash` when it is non-null and non-empty; the digest of the
downloaded bytes is computed exactly when `fileHash` is absent or the
empty string. -/
theorem reparse_fileHash_policy (env : Env) (m : Media) (f : String) (buf : List Nat)
    (d : ImageData) (turl thash : String)
    (h1 : env.getFilenameFromURL m.url = some f)
    (h2 : downloadAll env m.url = .ok buf)
    (h3 : env.imageData m.url = .ok d)
    (h4 : env.uploadFn d.thumbnail (makeThumbnailFilename f) = .ok (turl, thash)) :
    (∀ h0, m.fileHash = some h0 → h0 ≠ "" →
      (reparse env m).1 = .ok (.updated
        { width := d.width, height := d.height, color := d.color,
          thumbnailUrl := turl, size := buf.length, fileHash := h0 })) ∧
    ((m.fileHash = none ∨ m.fileHash = some "") →
      (reparse env m).1 = .ok (.updated
        { width := d.width, height := d.height, color := d.color,
          thumbnailUrl := turl, size := buf.length, fileHash := env.getHash buf })) := by
  constructor
  · intro h0 hh hne
    simp [reparse, h1, h2, h3, h4, hh, hne]
  · rintro (hh | hh) <;> simp [reparse, h1, h2, h3, h4, hh]

/-- C10 witness: a non-empty hash is preserved at a concrete
environment. -/
theorem reparse_fileHash_policy_witness :
    (reparse envOk { mediaNoHash with fileHash := some "keep" }).1 = .ok (.updated
      { width := 10, height := 20, color := some "#aabbcc",
        thumbnailUrl := "https://s/u.jpg", size := 2, fileHash := "keep" }) :=
  (reparse_fileHash_policy envOk { mediaNoHash with fileHash := some "keep" } "f.jpg"
      [1, 2] _ "https://s/u.jpg" "h0" rfl rfl rfl rfl).1 "keep" rfl (by decide)

end Gifme
